import Mathlib

/-!
Verification of the core of the laptop decision-support system: the SAW
(Simple Additive Weighting) scoring engine (`saw_method.py`), the data
preprocessing invariants (`data_processor.py`), and the chat-driven
preference-extraction layer (`ai_assistant.py`).

Python floats are modelled as exact rationals (ℚ), pandas Series as Lean
lists (index-aligned, positional), and Python dicts as association lists
with distinct keys.  All definitions are executable, so concrete scenarios
can be settled by evaluation.
-/

namespace Laptop

/-! ### List helpers (pandas `Series.min` / `Series.max` on nonempty columns) -/

/-- Minimum of a list of rationals; `0` on the empty list (pandas returns
NaN there, a case never reached by the claims, which are stated for the
nonempty or guarded situations). -/
def minQ : List ℚ → ℚ
  | [] => 0
  | [x] => x
  | x :: y :: t => min x (minQ (y :: t))

/-- Maximum of a list of rationals; `0` on the empty list. -/
def maxQ : List ℚ → ℚ
  | [] => 0
  | [x] => x
  | x :: y :: t => max x (maxQ (y :: t))

/-! ### saw_method.py -/

/-- Embedding of `normalize_benefit` (saw_method.py lines 46-54):
`r[i] = x[i] / max(x)`, and an all-zero column (max 0) maps to a column of
zeros instead of dividing by zero. -/
def normalize_benefit (values : List ℚ) : List ℚ :=
  let max_val := maxQ values
  if max_val = 0 then values.map (fun _ => 0)
  else values.map (fun x => x / max_val)

/-- Embedding of `normalize_cost` (saw_method.py lines 57-65):
`r[i] = min(x) / x[i]`, where the minimum is taken over the raw values and
each zero entry is replaced by `0.001` in the denominator only
(`values.replace(0, 0.001)`). -/
def normalize_cost (values : List ℚ) : List ℚ :=
  let min_val := minQ values
  values.map (fun x => min_val / (if x = 0 then 1/1000 else x))

/-- Embedding of `CRITERIA_CONFIG` (saw_method.py lines 12-43), keeping the
field consumed by normalization: `true` = benefit, `false` = cost.  (The
display names and default weights of the Python dict are not consumed by
any claim.) -/
def CRITERIA_CONFIG : List (String × Bool) :=
  [("price_numeric", false), ("ram_numeric", true), ("ssd_numeric", true),
   ("rating_numeric", true), ("display_numeric", true), ("gpu_numeric", true)]

/-- A DataFrame restricted to what SAW consumes: the list of column names,
the data of each column (positionally indexed), and the number of rows
`n` (the length of `df.index`). -/
structure Df where
  cols : List String
  col : String → List ℚ
  n : ℕ

/-- Python `weights.get(col, 0)` on the weights dict, modelled as an
association list. -/
def getWeight (weights : List (String × ℚ)) (c : String) : ℚ :=
  match weights.find? (fun p => decide (p.1 = c)) with
  | some p => p.2
  | none => 0

/-- Lookup in the criteria configuration (`col in criteria_config` plus
`criteria_config[col]['type']`). -/
def lookupCfg (cfg : List (String × Bool)) (c : String) : Option Bool :=
  (cfg.find? (fun p => decide (p.1 = c))).map (fun p => p.2)

/-- One column of `normalize_matrix` (saw_method.py lines 76-93): benefit
columns use `normalize_benefit`, cost columns `normalize_cost`, and a
column absent from the configuration defaults to benefit. -/
def normalizeColumn (cfg : List (String × Bool)) (c : String) (xs : List ℚ) : List ℚ :=
  match lookupCfg cfg c with
  | some true => normalize_benefit xs
  | some false => normalize_cost xs
  | none => normalize_benefit xs

/-- The line `criteria_columns = [col for col in weights.keys() if col in df.columns]`
of `calculate_saw_scores`. -/
def criteriaColumns (weights : List (String × ℚ)) (df : Df) : List String :=
  (weights.map Prod.fst).filter (fun c => decide (c ∈ df.cols))

/-- Embedding of `calculate_saw_scores` (saw_method.py lines 96-131),
returning the scores Series: starting from `pd.Series(0.0, index=df.index)`
it accumulates `normalized_matrix[col] * weights.get(col, 0)` elementwise
over the criteria columns.  (The decision and normalized matrices also
returned by the Python function are `df.col` restricted to
`criteriaColumns` and `normalizeColumn` of the same, exposed here through
those definitions.) -/
def calculate_saw_scores (df : Df) (weights : List (String × ℚ))
    (cfg : List (String × Bool)) : List ℚ :=
  (criteriaColumns weights df).foldl
    (fun acc c =>
      acc.zipWith (· + ·) ((normalizeColumn cfg c (df.col c)).map (fun x => x * getWeight weights c)))
    (List.replicate df.n 0)

/-- The contract of `result.sort_values('SAW_Score', ascending=False)`
with pandas' default `kind='quicksort'`: some permutation of the (row,
score) pairs ordered by score descending.  pandas documents quicksort as
not stable, and implements a descending single-column sort as a reversed
ascending argsort, so the relative order of equal scores is
implementation-defined; the embedding therefore admits every compliant
output instead of stipulating one tie order. -/
def IsSortedDescBy {α : Type} (input output : List (α × ℚ)) : Prop :=
  output.Perm input ∧ output.Pairwise (fun a b => b.2 ≤ a.2)

/-- The deterministic tail of `rank_alternatives` (saw_method.py lines
150-164) applied to whatever row order `sorted` the sort call produced:
add the Rank column `range(1, len(result) + 1)`, then `head(top_n)` when
`top_n` is given.  Each output entry is (row, SAW_Score, Rank). -/
def rank_alternatives_post {α : Type} (sorted : List (α × ℚ))
    (top_n : Option ℕ) : List (α × ℚ × ℕ) :=
  let ranked := (sorted.zip (List.range sorted.length)).map
    (fun p => (p.1.1, p.1.2, p.2 + 1))
  match top_n with
  | none => ranked
  | some k => ranked.take k

/-- Embedding of `rank_alternatives` (saw_method.py lines 134-164) as a
relation between its inputs and a possible result: attach the scores to
the rows, sort by score descending under the library's contract
(`IsSortedDescBy`, tie order implementation-defined), rank 1..N, truncate
to `top_n`.  A result is reachable iff some contract-compliant sorted
order produces it. -/
def rank_alternatives_rel {α : Type} (rows : List α) (scores : List ℚ)
    (top_n : Option ℕ) (result : List (α × ℚ × ℕ)) : Prop :=
  ∃ sorted, IsSortedDescBy (rows.zip scores) sorted ∧
    result = rank_alternatives_post sorted top_n

/-! ### ai_assistant.py : conversation memory -/

/-- Embedding of the `ConversationMemory` class (ai_assistant.py lines
26-98).  Messages are (role, content) pairs (the wall-clock timestamp
attached by `add_message` is presentation data, not consulted by any
operation).  The `user_preferences` dict is modelled by its two consulted
keys, `budget` and `use_case`. -/
structure ConversationMemory where
  messages : List (String × String)
  prefBudget : Option ℚ
  prefUseCase : Option String
  recommended_laptops : List String
  clarifications_asked : List String
deriving DecidableEq

/-- A fresh memory, as built by `ConversationMemory.__init__`. -/
def freshMemory : ConversationMemory :=
  { messages := [], prefBudget := none, prefUseCase := none,
    recommended_laptops := [], clarifications_asked := [] }

/-- Embedding of `ConversationMemory.mark_clarification_asked` (lines
54-57): append the topic unless it is already recorded. -/
def mark_clarification_asked (m : ConversationMemory) (topic : String) :
    ConversationMemory :=
  if topic ∈ m.clarifications_asked then m
  else { m with clarifications_asked := m.clarifications_asked ++ [topic] }

/-- Embedding of `ConversationMemory.should_ask_clarification` (lines
59-61): `topic not in self.clarifications_asked`. -/
def should_ask_clarification (m : ConversationMemory) (topic : String) : Bool :=
  decide (topic ∉ m.clarifications_asked)

/-- Python truthiness of `memory.user_preferences.get('budget')`: a missing
key or the number 0 are falsy. -/
def truthyNum : Option ℚ → Bool
  | none => false
  | some b => decide (b ≠ 0)

/-- Python truthiness of `memory.user_preferences.get('use_case')`: a
missing key or the empty string are falsy. -/
def truthyStr : Option String → Bool
  | none => false
  | some s => decide (s ≠ "")

/-! ### ai_assistant.py : keyword scanning (Python `in` and the budget regex) -/

/-- Does the first list lead the second (list version of a string test used
by substring search)? -/
def leadsList : List Char → List Char → Bool
  | [], _ => true
  | _ :: _, [] => false
  | a :: as, b :: bs => a == b && leadsList as bs

/-- Substring containment on char lists: some suffix of the haystack is led
by the needle. -/
def subAt (needle : List Char) : List Char → Bool
  | [] => leadsList needle []
  | c :: t => leadsList needle (c :: t) || subAt needle t

/-- Python's `needle in haystack` on strings. -/
def pyIn (needle hay : String) : Bool := subAt needle.toList hay.toList

/-- Python's `str.lower()` (character-wise lowercasing; the utterances and
keyword lists of this system are ASCII). -/
def lowerAscii (s : String) : String := ⟨s.toList.map Char.toLower⟩

/-- Python's `\w` word character (ASCII letters, digits, underscore; the
inputs of the claims are ASCII). -/
def isWordChar (c : Char) : Bool := c.isAlphanum || c == '_'

/-- The unit alternatives of the clarification-gate budget regex
`(juta|jt|ribu|rb|million|m\b)` tested at a fixed position; `m` requires a
word boundary after it. -/
def budgetUnitFull (cs : List Char) : Bool :=
  leadsList "juta".toList cs || leadsList "jt".toList cs ||
  leadsList "ribu".toList cs || leadsList "rb".toList cs ||
  leadsList "million".toList cs ||
  (match cs with
   | 'm' :: rest =>
     match rest with
     | [] => true
     | c :: _ => !isWordChar c
   | _ => false)

/-- A match of `\d+\s*(juta|jt|ribu|rb|million|m\b)` starting at this
position: a nonempty digit run, optional whitespace, then a unit. -/
def budgetMatchFullAt (cs : List Char) : Bool :=
  let digits := cs.takeWhile Char.isDigit
  decide (digits ≠ []) &&
    budgetUnitFull ((cs.dropWhile Char.isDigit).dropWhile Char.isWhitespace)

/-- The `has_explicit_budget` regex search of `check_needs_clarification`
(ai_assistant.py line 199): `re.search` succeeds iff a match starts at some
position. -/
def hasExplicitBudget (s : String) : Bool :=
  (fun cs => (List.range cs.length).any (fun i => budgetMatchFullAt (cs.drop i)))
    s.toList

/-! ### ai_assistant.py : clarification gate -/

/-- Keyword lists of `check_needs_clarification` (ai_assistant.py lines
200, 214-216, 219-220). -/
def budget_vague_keywords : List String :=
  ["murah", "mahal", "terjangkau", "budget", "hemat", "ekonomis"]

/-- Use-case keywords of the clarification gate. -/
def use_case_keywords : List String :=
  ["gaming", "game", "editing", "edit", "video", "render",
   "coding", "programming", "ngoding", "office", "kantor",
   "kuliah", "mahasiswa", "pelajar", "kerja", "desain", "design"]

/-- Vague-request keywords of the clarification gate. -/
def vague_request_keywords : List String :=
  ["bagus", "recommended", "terbaik", "worth it", "rekomen",
   "suggest", "saran", "pilih", "cari", "butuh laptop"]

/-- The two clarification question texts (ai_assistant.py lines 209, 229). -/
def budgetQuestion : String :=
  "Berapa budget yang Anda siapkan untuk laptop ini? (dalam jutaan rupiah, misal: 10 juta)"

/-- The use-case clarification question text. -/
def useCaseQuestion : String :=
  "Laptop ini akan digunakan untuk apa? (contoh: gaming, editing video, coding, office, kuliah)"

/-- Result record of `check_needs_clarification`. -/
structure ClarificationCheck where
  needed : Bool
  questions : List String
  missing_info : List String
deriving DecidableEq

/-- Embedding of `check_needs_clarification` (ai_assistant.py lines
185-233): a vague budget term without an explicit amount, unknown budget
and an unasked topic add the budget question; a vague request without a
use-case keyword, unknown use case and an unasked topic add the use-case
question. -/
def check_needs_clarification (message : String) (memory : ConversationMemory) :
    ClarificationCheck :=
  let ml := lowerAscii message
  let has_explicit_budget := hasExplicitBudget ml
  let has_vague_budget :=
    (budget_vague_keywords.any (fun w => pyIn w ml)) && !has_explicit_budget
  let budget_known := truthyNum memory.prefBudget
  let askBudget :=
    has_vague_budget && !budget_known && should_ask_clarification memory "budget"
  let has_use_case := use_case_keywords.any (fun w => pyIn w ml)
  let has_vague_request :=
    (vague_request_keywords.any (fun w => pyIn w ml)) && !has_use_case
  let use_case_known := truthyStr memory.prefUseCase
  let askUseCase :=
    has_vague_request && !use_case_known && should_ask_clarification memory "use_case"
  { needed := askBudget || askUseCase
  , questions := (if askBudget then [budgetQuestion] else []) ++
      (if askUseCase then [useCaseQuestion] else [])
  , missing_info := (if askBudget then ["budget"] else []) ++
      (if askUseCase then ["use_case"] else []) }

/-- Embedding of `generate_clarification_response` (ai_assistant.py lines
236-244). -/
def generate_clarification_response (questions : List String) : String :=
  match questions with
  | [q] => "Untuk memberikan rekomendasi yang tepat, saya perlu tahu: " ++ q
  | qs =>
    "Untuk memberikan rekomendasi yang tepat, saya perlu beberapa informasi:\n" ++
      String.intercalate "\n"
        (qs.enum.map (fun p => toString (p.1 + 1) ++ ". " ++ p.2))

/-- The clarification-branch result of `parse_user_message` (only the
fields the branch sets; `filters`, `weights`, `detected_preferences` and
`error` keep their empty initial values there). -/
structure ParseResult where
  success : Bool
  response_message : String
  needs_clarification : Bool
  clarification_questions : List String
deriving DecidableEq

/-- Embedding of the local clarification gate of `parse_user_message`
(ai_assistant.py lines 489-512): when `check_needs_clarification` fires,
the turn stops with the clarification result and every missing topic is
marked asked; otherwise (`none`) the function proceeds to the remote
interpretation call, an external network effect outside this model and
outside the claims about this gate. -/
def parse_user_message_gate (message : String) (memory : ConversationMemory) :
    Option (ParseResult × ConversationMemory) :=
  let clarification := check_needs_clarification message memory
  if clarification.needed then
    some ({ success := false
          , response_message := generate_clarification_response clarification.questions
          , needs_clarification := true
          , clarification_questions := clarification.questions },
          clarification.missing_info.foldl mark_clarification_asked memory)
  else none

/-! ### ai_assistant.py : keyword fallback parser -/

/-- Numeric value of a digit run. -/
def digitsToNat (ds : List Char) : ℕ :=
  ds.foldl (fun a c => a * 10 + (c.toNat - '0'.toNat)) 0

/-- The unit alternatives of the fallback budget regex
`(\d+)\s*(juta|jt|million|m\b)` (ai_assistant.py line 592) — note: no
`ribu`/`rb` here, unlike the clarification gate. -/
def budgetUnitSimple (cs : List Char) : Bool :=
  leadsList "juta".toList cs || leadsList "jt".toList cs ||
  leadsList "million".toList cs ||
  (match cs with
   | 'm' :: rest =>
     match rest with
     | [] => true
     | c :: _ => !isWordChar c
   | _ => false)

/-- Capture group 1 of the fallback budget regex when a match starts at
this position. -/
def budgetCaptureAt (cs : List Char) : Option ℕ :=
  let digits := cs.takeWhile Char.isDigit
  if digits = [] then none
  else if budgetUnitSimple ((cs.dropWhile Char.isDigit).dropWhile Char.isWhitespace) then
    some (digitsToNat digits)
  else none

/-- Leftmost match of the fallback budget regex (`re.search` semantics). -/
def findBudget : List Char → Option ℕ
  | [] => none
  | c :: t =>
    match budgetCaptureAt (c :: t) with
    | some v => some v
    | none => findBudget t

/-- The filter keys the fallback parser can set. -/
structure FallbackFilters where
  price_max : Option ℕ
  gpu_min : Option ℕ
  ram_min : Option ℕ
  ssd_min : Option ℕ
deriving DecidableEq

/-- The six 1-5 star weights of the fallback parser. -/
structure Weights6 where
  price : ℕ
  ram : ℕ
  ssd : ℕ
  rating : ℕ
  display : ℕ
  gpu : ℕ
deriving DecidableEq

/-- The `detected_preferences` dict of the fallback parser. -/
structure DetectedPrefs where
  budget : Option ℕ
  use_case : Option String
deriving DecidableEq

/-- Structured result of `parse_simple_fallback` (the templated
`response_message` string and the always-`None` `error` field are
presentation data outside the claims and are omitted). -/
structure FallbackResult where
  success : Bool
  filters : FallbackFilters
  weights : Weights6
  use_case : String
  needs_clarification : Bool
  clarification_questions : List String
  detected_preferences : DetectedPrefs
deriving DecidableEq

/-- Embedding of `parse_simple_fallback` (ai_assistant.py lines 574-667):
parse an explicit budget, then walk the if/elif use-case clusters in the
fixed source order (gaming, editing, coding, office, kuliah, plain
budget-conscious) taking the first match only; finally merge the detected
preferences into memory (`update_preferences`, a per-key overwrite). -/
def parse_simple_fallback (message : String) (memory : ConversationMemory) :
    FallbackResult × ConversationMemory :=
  let ml := lowerAscii message
  let budget := (findBudget ml.toList).map (fun v => v * 1000000)
  let cluster :
      Weights6 × FallbackFilters × String × Option String :=
    if ["gaming", "game", "main game"].any (fun w => pyIn w ml) then
      (⟨2, 4, 3, 3, 4, 5⟩, ⟨budget, some 4, some 16, none⟩, "gaming", some "gaming")
    else if ["editing", "edit", "video", "render", "3d", "desain"].any (fun w => pyIn w ml) then
      (⟨2, 5, 4, 3, 4, 5⟩, ⟨budget, some 4, some 16, some 512⟩, "editing", some "editing")
    else if ["programming", "coding", "developer", "programmer", "ngoding"].any (fun w => pyIn w ml) then
      (⟨3, 5, 4, 3, 4, 2⟩, ⟨budget, none, some 16, some 512⟩, "coding", some "coding")
    else if ["office", "kantor", "kerja", "bisnis"].any (fun w => pyIn w ml) then
      (⟨4, 3, 3, 4, 3, 1⟩, ⟨budget, none, some 8, none⟩, "office", some "office")
    else if ["kuliah", "mahasiswa", "pelajar", "sekolah", "student"].any (fun w => pyIn w ml) then
      (⟨5, 3, 3, 3, 2, 1⟩, ⟨budget, none, some 8, none⟩, "kuliah", some "kuliah")
    else if ["murah", "budget", "hemat", "terjangkau"].any (fun w => pyIn w ml) then
      (⟨5, 3, 2, 3, 2, 1⟩, ⟨budget, none, none, none⟩, "", none)
    else
      (⟨3, 3, 3, 3, 3, 3⟩, ⟨budget, none, none, none⟩, "", none)
  let detected : DetectedPrefs := ⟨budget, cluster.2.2.2⟩
  let memory' : ConversationMemory :=
    { memory with
      prefBudget := match budget with
        | some b => some (b : ℚ)
        | none => memory.prefBudget
      prefUseCase := match detected.use_case with
        | some u => some u
        | none => memory.prefUseCase }
  (⟨true, cluster.2.1, cluster.1, cluster.2.2.1, false, [], detected⟩, memory')

/-! ### ai_assistant.py : star weights -/

/-- Dataset-wide statistics handed to `convert_ai_filters_to_app_filters`
(the `data_stats` dict): per-criterion observed min/max and the observed
option lists for ram/ssd/gpu. -/
structure DataStats where
  price_min : ℚ
  price_max : ℚ
  ram_options : List ℚ
  ssd_options : List ℚ
  gpu_options : List ℚ
  rating_min : ℚ
  rating_max : ℚ
  display_min : ℚ
  display_max : ℚ
deriving DecidableEq

/-- The per-criterion bound hints of an AI `filters` dict.  A key that is
missing and a key present with value `None` behave identically in the
source (`dict.get` followed by `or`), so both are `none` here. -/
structure AiFilters where
  price_min : Option ℚ
  price_max : Option ℚ
  ram_min : Option ℚ
  ram_max : Option ℚ
  ssd_min : Option ℚ
  rating_min : Option ℚ
  display_min : Option ℚ
  display_max : Option ℚ
  gpu_min : Option ℚ
deriving DecidableEq

/-- The complete six-criterion (min, max) mapping returned by
`convert_ai_filters_to_app_filters`. -/
structure AppFilters where
  price : ℚ × ℚ
  ram : ℚ × ℚ
  ssd : ℚ × ℚ
  rating : ℚ × ℚ
  display : ℚ × ℚ
  gpu : ℚ × ℚ
deriving DecidableEq

/-- Python's `value or default` on an optional number: a missing key,
`None`, and the falsy number 0 all yield the default. -/
def pyOr (v : Option ℚ) (d : ℚ) : ℚ :=
  match v with
  | none => d
  | some x => if x = 0 then d else x

/-- Python's `int()` on a rational: truncation toward zero. -/
def pyTruncQ (q : ℚ) : ℤ :=
  if q < 0 then -((-q).floor) else q.floor

/-- Embedding of `convert_ai_filters_to_app_filters` (ai_assistant.py lines
670-705): every falsy bound falls back to the dataset-wide observed
min/max (prices via the `* 192` IDR conversion and back with `/ 192`;
`ssd` and `gpu` upper bounds are always the observed max). -/
def convert_ai_filters_to_app_filters (f : AiFilters) (ds : DataStats) :
    AppFilters :=
  let price_min_idr : ℚ := (pyTruncQ (ds.price_min * 192) : ℤ)
  let price_max_idr : ℚ := (pyTruncQ (ds.price_max * 192) : ℤ)
  { price := ((pyOr f.price_min price_min_idr) / 192,
              (pyOr f.price_max price_max_idr) / 192)
  , ram := (pyOr f.ram_min (minQ ds.ram_options), pyOr f.ram_max (maxQ ds.ram_options))
  , ssd := (pyOr f.ssd_min (minQ ds.ssd_options), maxQ ds.ssd_options)
  , rating := (pyOr f.rating_min ((pyTruncQ ds.rating_min : ℤ) : ℚ),
               ((pyTruncQ ds.rating_max : ℤ) : ℚ))
  , display := (pyOr f.display_min ds.display_min, pyOr f.display_max ds.display_max)
  , gpu := (pyOr f.gpu_min (minQ ds.gpu_options), maxQ ds.gpu_options) }

/-! ### data_processor.py : preprocess_data -/

/-- A row as it enters `preprocess_data`, after the per-field extraction
`.apply` steps whose regexes the spec scopes out: `clean_price` yields a
parsed price or NaN (`none`), `extract_ram`/`extract_ssd`/
`extract_gpu_memory` yield naturals (0 on no match), `extract_display_size`
a non-negative number, and `pd.to_numeric(df['Rating'], errors='coerce')` a
parsed rating or NaN. -/
structure RawRow where
  model : String
  price : Option ℚ
  ram : ℕ
  ssd : ℕ
  display : ℚ
  gpu : ℕ
  rating : Option ℚ
deriving DecidableEq

/-- A row as `preprocess_data` returns it: price retained (always present
after the dropna), ram/ssd/display now rationals after the `0 → 0.1`
replacement, rating possibly median-filled, plus the category label. -/
structure ProcRow where
  model : String
  price : Option ℚ
  ram : ℚ
  ssd : ℚ
  display : ℚ
  gpu : ℕ
  rating : Option ℚ
  category : String
deriving DecidableEq

/-- Ascending insertion for the median's sort. -/
def insAscQ (x : ℚ) : List ℚ → List ℚ
  | [] => [x]
  | y :: ys => if x ≤ y then x :: y :: ys else y :: insAscQ x ys

/-- Ascending insertion sort. -/
def sortAscQ : List ℚ → List ℚ
  | [] => []
  | x :: xs => insAscQ x (sortAscQ xs)

/-- Pandas `Series.median` restricted to the non-NaN values: the middle of
the sorted values, or the mean of the two middles; NaN (`none`) when no
value exists. -/
def medianQ (l : List ℚ) : Option ℚ :=
  let s := sortAscQ l
  let n := s.length
  if n = 0 then none
  else if n % 2 = 1 then some (s.getD (n / 2) 0)
  else some ((s.getD (n / 2 - 1) 0 + s.getD (n / 2) 0) / 2)

/-- Embedding of `categorize_laptop` (data_processor.py lines 130-151):
Gaming when the model name mentions gaming or the GPU has ≥ 4 GB; Student
when the price is a number in (0, 40000) and graphics are integrated;
otherwise Office.  A NaN price fails the `price > 0` comparison, giving
Office. -/
def categorize_laptop (r : RawRow) : String :=
  if pyIn "gaming" (lowerAscii r.model) || decide (4 ≤ r.gpu) then "Gaming"
  else
    match r.price with
    | some p => if 0 < p ∧ p < 40000 ∧ r.gpu = 0 then "Student" else "Office"
    | none => "Office"

/-- Embedding of `preprocess_data` (data_processor.py lines 154-184):
fill missing ratings with the dataset median, attach the category, drop
rows whose price failed to parse, then replace an exact 0 in
ram/ssd/display by 0.1. -/
def preprocess_data (rows : List RawRow) : List ProcRow :=
  let median_rating := medianQ (rows.filterMap (fun r => r.rating))
  let filled := rows.map (fun r =>
    { r with rating := match r.rating with
        | some v => some v
        | none => median_rating })
  let kept := filled.filter (fun r => r.price.isSome)
  kept.map (fun r =>
    ({ model := r.model
     , price := r.price
     , ram := if (r.ram : ℚ) = 0 then 1/10 else (r.ram : ℚ)
     , ssd := if (r.ssd : ℚ) = 0 then 1/10 else (r.ssd : ℚ)
     , display := if r.display = 0 then 1/10 else r.display
     , gpu := r.gpu
     , rating := r.rating
     , category := categorize_laptop r } : ProcRow))

/-- The `star_to_weight` lookup of `convert_ai_weights_to_app_weights`
(ai_assistant.py line 710), with the `.get(..., 0.15)` default for a key
outside 1..5. -/
def star_to_weight (s : ℕ) : ℚ :=
  if s = 1 then 1/20
  else if s = 2 then 1/10
  else if s = 3 then 3/20
  else if s = 4 then 1/5
  else if s = 5 then 1/4
  else 3/20

/-- Embedding of `convert_ai_weights_to_app_weights` (ai_assistant.py lines
708-724): map the six star ratings through the fixed lookup, then divide
every raw weight by their total. -/
def convert_ai_weights_to_app_weights (price ram ssd rating display gpu : ℕ) :
    List (String × ℚ) :=
  let raw : List (String × ℚ) :=
    [("price_numeric", star_to_weight price), ("ram_numeric", star_to_weight ram),
     ("ssd_numeric", star_to_weight ssd), ("rating_numeric", star_to_weight rating),
     ("display_numeric", star_to_weight display), ("gpu_numeric", star_to_weight gpu)]
  let total := (raw.map Prod.snd).sum
  raw.map (fun q => (q.1, q.2 / total))

/-! ### Helper lemmas about list minima, maxima and indexing -/

lemma minQ_le (xs : List ℚ) (x : ℚ) (hx : x ∈ xs) : minQ xs ≤ x := by
  induction xs with
  | nil => simp at hx
  | cons a t ih =>
    cases t with
    | nil =>
      rcases List.mem_cons.mp hx with rfl | h
      · exact le_refl _
      · simp at h
    | cons b t2 =>
      rcases List.mem_cons.mp hx with rfl | h
      · exact min_le_left _ _
      · exact le_trans (min_le_right _ _) (ih h)

lemma minQ_mem (xs : List ℚ) (h : xs ≠ []) : minQ xs ∈ xs := by
  induction xs with
  | nil => exact absurd rfl h
  | cons a t ih =>
    cases t with
    | nil => simp [minQ]
    | cons b t2 =>
      have hdef : minQ (a :: b :: t2) = min a (minQ (b :: t2)) := rfl
      rcases min_choice a (minQ (b :: t2)) with hc | hc
      · rw [hdef, hc]; exact List.mem_cons_self a _
      · rw [hdef, hc]; exact List.mem_cons_of_mem a (ih (by simp))

lemma maxQ_ge (xs : List ℚ) (x : ℚ) (hx : x ∈ xs) : x ≤ maxQ xs := by
  induction xs with
  | nil => simp at hx
  | cons a t ih =>
    cases t with
    | nil =>
      rcases List.mem_cons.mp hx with rfl | h
      · exact le_refl _
      · simp at h
    | cons b t2 =>
      rcases List.mem_cons.mp hx with rfl | h
      · exact le_max_left _ _
      · exact le_trans (ih h) (le_max_right _ _)

lemma maxQ_mem (xs : List ℚ) (h : xs ≠ []) : maxQ xs ∈ xs := by
  induction xs with
  | nil => exact absurd rfl h
  | cons a t ih =>
    cases t with
    | nil => simp [maxQ]
    | cons b t2 =>
      have hdef : maxQ (a :: b :: t2) = max a (maxQ (b :: t2)) := rfl
      rcases max_choice a (maxQ (b :: t2)) with hc | hc
      · rw [hdef, hc]; exact List.mem_cons_self a _
      · rw [hdef, hc]; exact List.mem_cons_of_mem a (ih (by simp))

lemma getD_map_q (f : ℚ → ℚ) (xs : List ℚ) (i : ℕ) (h : i < xs.length) :
    (xs.map f).getD i 0 = f (xs.getD i 0) := by
  induction xs generalizing i with
  | nil => simp at h
  | cons a t ih =>
    cases i with
    | zero => simp
    | succ n => simpa using ih n (by simpa using h)

lemma getD_mem_q (xs : List ℚ) (i : ℕ) (h : i < xs.length) : xs.getD i 0 ∈ xs := by
  induction xs generalizing i with
  | nil => simp at h
  | cons a t ih =>
    cases i with
    | zero => simp
    | succ n => exact List.mem_cons_of_mem a (ih n (by simpa using h))

lemma getD_zipWith_add (a b : List ℚ) (i : ℕ) (ha : i < a.length) (hb : i < b.length) :
    (a.zipWith (· + ·) b).getD i 0 = a.getD i 0 + b.getD i 0 := by
  induction a generalizing b i with
  | nil => simp at ha
  | cons x xs ih =>
    cases b with
    | nil => simp at hb
    | cons y ys =>
      cases i with
      | zero => simp [List.zipWith]
      | succ n =>
        simpa [List.zipWith] using ih ys n (by simpa using ha) (by simpa using hb)

lemma getD_replicate_zero (n i : ℕ) : (List.replicate n (0 : ℚ)).getD i 0 = 0 := by
  induction n generalizing i with
  | zero => simp
  | succ m ih =>
    cases i with
    | zero => simp [List.replicate_succ]
    | succ j => simpa [List.replicate_succ] using ih j

lemma length_normalize_benefit (xs : List ℚ) :
    (normalize_benefit xs).length = xs.length := by
  simp only [normalize_benefit]
  split <;> simp

lemma length_normalize_cost (xs : List ℚ) :
    (normalize_cost xs).length = xs.length := by
  simp [normalize_cost]

lemma length_normalizeColumn (cfg : List (String × Bool)) (c : String) (xs : List ℚ) :
    (normalizeColumn cfg c xs).length = xs.length := by
  unfold normalizeColumn
  cases h : lookupCfg cfg c with
  | none => simp [length_normalize_benefit]
  | some b => cases b <;> simp [length_normalize_benefit, length_normalize_cost]

/-! ### Claim C2 : cost normalization -/

/-- Claim C2 as frozen is false of the source: `normalize_cost` takes the
column minimum over the raw values, before the zero entries are replaced
by 0.001, so a non-negative cost column containing a literal 0 normalizes
to a column of zeros — 0 is outside (0, 1], and the row holding the
minimum raw value (the 0) maps to 0, not to 1.0. -/
theorem normalize_cost_unit_interval_counterexample :
    (∀ x ∈ ([0, 5] : List ℚ), 0 ≤ x) ∧
    normalize_cost [0, 5] = [0, 0] ∧
    ¬ (∀ y ∈ normalize_cost ([0, 5] : List ℚ), 0 < y ∧ y ≤ 1) ∧
    minQ [0, 5] = 0 ∧ ¬ (normalize_cost ([0, 5] : List ℚ)).getD 0 0 = 1 := by
  have hval : normalize_cost ([0, 5] : List ℚ) = [0, 0] := by
    norm_num [normalize_cost, minQ, min_def]
  refine ⟨by decide, hval, ?_, by simp [minQ, min_def], ?_⟩
  · rw [hval]
    intro h
    exact absurd ((h 0 (by simp)).1) (lt_irrefl 0)
  · rw [hval]
    norm_num

/-- Claim C2 amended: for a cost column whose raw values are all strictly
positive (so no zero entry triggers the epsilon replacement of the
denominator), every output of `normalize_cost` lies in (0, 1] and every
row holding the minimum raw value maps to exactly 1.0. -/
theorem normalize_cost_unit_interval (xs : List ℚ) (hpos : ∀ x ∈ xs, 0 < x) :
    (∀ y ∈ normalize_cost xs, 0 < y ∧ y ≤ 1) ∧
    (∀ i, i < xs.length → xs.getD i 0 = minQ xs →
      (normalize_cost xs).getD i 0 = 1) := by
  constructor
  · intro y hy
    rcases List.mem_map.mp hy with ⟨x, hx, rfl⟩
    have hx0 : 0 < x := hpos x hx
    have hne : xs ≠ [] := by rintro rfl; simp at hx
    have hm0 : 0 < minQ xs := hpos _ (minQ_mem xs hne)
    rw [if_neg (ne_of_gt hx0)]
    exact ⟨div_pos hm0 hx0, div_le_one_of_le₀ (minQ_le xs x hx) (le_of_lt hx0)⟩
  · intro i hi hmin
    have hx0 : 0 < xs.getD i 0 := hpos _ (getD_mem_q xs i hi)
    show ((xs.map fun x => minQ xs / (if x = 0 then 1/1000 else x)).getD i 0) = 1
    rw [getD_map_q _ _ _ hi, if_neg (ne_of_gt hx0), hmin]
    rw [hmin] at hx0
    exact div_self (ne_of_gt hx0)

/-- Witness for the amended C2 at the concrete cost column [2, 6]: the
minimum row normalizes to exactly 1 and the other output 1/3 lies in
(0, 1]. -/
theorem normalize_cost_unit_interval_witness :
    (normalize_cost [2, 6]).getD 0 0 = 1 ∧ (0 < (1 : ℚ)/3 ∧ (1 : ℚ)/3 ≤ 1) := by
  have hpos : ∀ x ∈ ([2, 6] : List ℚ), 0 < x := by decide
  constructor
  · exact (normalize_cost_unit_interval [2, 6] hpos).2 0 (by decide)
      (by simp [minQ, min_def]; norm_num)
  · refine (normalize_cost_unit_interval [2, 6] hpos).1 (1/3) ?_
    have hval : normalize_cost ([2, 6] : List ℚ) = [1, 1/3] := by
      norm_num [normalize_cost, minQ, min_def]
    rw [hval]
    simp

/-! ### Claim C3 : benefit normalization -/

lemma maxQ_of_all_zero (xs : List ℚ) (hz : ∀ x ∈ xs, x = 0) : maxQ xs = 0 := by
  cases xs with
  | nil => rfl
  | cons a t => exact hz _ (maxQ_mem (a :: t) (by simp))

/-- Claim C3: for a benefit column of non-negative raw values every output
of `normalize_benefit` lies in [0, 1]; when the maximum is positive every
row holding it maps to exactly 1.0; and an all-zero column yields the
all-zero column (the guarded branch — total, no exception). -/
theorem normalize_benefit_unit_interval (xs : List ℚ) (h0 : ∀ x ∈ xs, 0 ≤ x) :
    (∀ y ∈ normalize_benefit xs, 0 ≤ y ∧ y ≤ 1) ∧
    (0 < maxQ xs → ∀ i, i < xs.length → xs.getD i 0 = maxQ xs →
      (normalize_benefit xs).getD i 0 = 1) ∧
    ((∀ x ∈ xs, x = 0) → normalize_benefit xs = xs.map (fun _ => 0)) := by
  refine ⟨?_, ?_, ?_⟩
  · intro y hy
    by_cases hmax : maxQ xs = 0
    · rw [normalize_benefit, if_pos hmax] at hy
      rcases List.mem_map.mp hy with ⟨x, _, rfl⟩
      exact ⟨le_refl 0, zero_le_one⟩
    · rw [normalize_benefit, if_neg hmax] at hy
      rcases List.mem_map.mp hy with ⟨x, hx, rfl⟩
      have hne : xs ≠ [] := by rintro rfl; simp at hx
      have hm0 : 0 < maxQ xs :=
        lt_of_le_of_ne (h0 _ (maxQ_mem xs hne)) (Ne.symm hmax)
      exact ⟨div_nonneg (h0 x hx) (le_of_lt hm0),
        div_le_one_of_le₀ (maxQ_ge xs x hx) (le_of_lt hm0)⟩
  · intro hmax i hi heq
    rw [normalize_benefit, if_neg (ne_of_gt hmax), getD_map_q _ _ _ hi, heq]
    exact div_self (ne_of_gt hmax)
  · intro hz
    rw [normalize_benefit, if_pos (maxQ_of_all_zero xs hz)]

/-- Witness for C3 at the concrete benefit column [0, 4]: the maximum row
normalizes to exactly 1 and the output 0 lies in [0, 1]. -/
theorem normalize_benefit_unit_interval_witness :
    (normalize_benefit [0, 4]).getD 1 0 = 1 ∧ (0 ≤ (0 : ℚ) ∧ (0 : ℚ) ≤ 1) := by
  have h0 : ∀ x ∈ ([0, 4] : List ℚ), 0 ≤ x := by decide
  have hmax : maxQ ([0, 4] : List ℚ) = 4 := by simp [maxQ, max_def]
  constructor
  · exact (normalize_benefit_unit_interval [0, 4] h0).2.1 (by rw [hmax]; norm_num) 1
      (by decide) (by rw [hmax]; rfl)
  · refine (normalize_benefit_unit_interval [0, 4] h0).1 0 ?_
    have hval : normalize_benefit ([0, 4] : List ℚ) = [0, 1] := by
      norm_num [normalize_benefit, maxQ, max_def]
    rw [hval]
    simp

/-! ### Claim C5 : star-weight quantization and renormalization -/

lemma star_to_weight_pos (s : ℕ) : 0 < star_to_weight s := by
  unfold star_to_weight
  split_ifs <;> norm_num

/-- Claim C5: for every assignment of star ratings 1-5 to the six criteria,
`convert_ai_weights_to_app_weights` maps them through the fixed lookup and
divides by the total, so the six resulting weights sum to exactly 1 (hence
to 1.0 within any tolerance, in particular 1e-9). -/
theorem convert_ai_weights_sum_one (p r s rt d g : ℕ)
    (hp : 1 ≤ p ∧ p ≤ 5) (hr : 1 ≤ r ∧ r ≤ 5) (hs : 1 ≤ s ∧ s ≤ 5)
    (hrt : 1 ≤ rt ∧ rt ≤ 5) (hd : 1 ≤ d ∧ d ≤ 5) (hg : 1 ≤ g ∧ g ≤ 5) :
    ((convert_ai_weights_to_app_weights p r s rt d g).map Prod.snd).sum = 1 ∧
    |((convert_ai_weights_to_app_weights p r s rt d g).map Prod.snd).sum - 1| ≤
      1 / 1000000000 := by
  have h1 := star_to_weight_pos p
  have h2 := star_to_weight_pos r
  have h3 := star_to_weight_pos s
  have h4 := star_to_weight_pos rt
  have h5 := star_to_weight_pos d
  have h6 := star_to_weight_pos g
  have hsum : ((convert_ai_weights_to_app_weights p r s rt d g).map Prod.snd).sum = 1 := by
    simp only [convert_ai_weights_to_app_weights, List.map_cons, List.map_nil,
      List.sum_cons, List.sum_nil]
    have hT : star_to_weight p + (star_to_weight r + (star_to_weight s +
        (star_to_weight rt + (star_to_weight d + (star_to_weight g + 0))))) ≠ 0 := by
      positivity
    field_simp
  refine ⟨hsum, ?_⟩
  rw [hsum]
  norm_num

/-- Witness for C5 at the all-different star assignment (1, 2, 3, 4, 5, 5). -/
theorem convert_ai_weights_sum_one_witness :
    ((convert_ai_weights_to_app_weights 1 2 3 4 5 5).map Prod.snd).sum = 1 ∧
    |((convert_ai_weights_to_app_weights 1 2 3 4 5 5).map Prod.snd).sum - 1| ≤
      1 / 1000000000 :=
  convert_ai_weights_sum_one 1 2 3 4 5 5 (by decide) (by decide) (by decide)
    (by decide) (by decide) (by decide)

/-! ### Claim C8 : idempotence of marking a clarification topic -/

/-- Claim C8: for every memory state and topic, marking a clarification
topic asked twice leaves the memory exactly as marking it once, and
`should_ask_clarification` answers false for that topic afterwards. -/
theorem mark_clarification_idempotent (m : ConversationMemory) (t : String) :
    mark_clarification_asked (mark_clarification_asked m t) t =
      mark_clarification_asked m t ∧
    should_ask_clarification (mark_clarification_asked m t) t = false := by
  by_cases h : t ∈ m.clarifications_asked <;>
    simp [mark_clarification_asked, should_ask_clarification, h]

/-! ### Claim C6 : the "cari laptop murah" clarification scenario -/

/-- Claim C6 as frozen is false of the source: on "cari laptop murah" with
a fresh memory the clarification gate emits two questions, not exactly
one — the word "cari" is itself a vague-request keyword, so a use-case
question joins the budget question. -/
theorem clarification_single_question_counterexample :
    ((parse_user_message_gate "cari laptop murah" freshMemory).map
        (fun p => p.1.clarification_questions.length)) = some 2 ∧
    ¬ ((parse_user_message_gate "cari laptop murah" freshMemory).map
        (fun p => p.1.clarification_questions.length)) = some 1 := by
  decide

set_option maxRecDepth 4000 in
/-- Claim C6 amended: on "cari laptop murah" with a fresh memory the gate
answers `needs_clarification = true` with exactly two questions — the
budget question first, then the use-case question — and marks both topics
"budget" and "use_case" asked in memory. -/
theorem clarification_two_questions :
    parse_user_message_gate "cari laptop murah" freshMemory =
      some ({ success := false
            , response_message :=
                generate_clarification_response [budgetQuestion, useCaseQuestion]
            , needs_clarification := true
            , clarification_questions := [budgetQuestion, useCaseQuestion] },
            { freshMemory with clarifications_asked := ["budget", "use_case"] }) := by
  decide

/-! ### Claim C7 : the "laptop gaming budget 15 juta" fallback scenario -/

set_option maxRecDepth 4000 in
/-- Claim C7: on "laptop gaming budget 15 juta" the keyword fallback
succeeds with budget 15000000 (both as the `price_max` filter and as the
detected budget preference), use case "gaming", the gaming filter floors
`ram_min = 16` and `gpu_min = 4`, and the gaming weight preset
(price 2, ram 4, ssd 3, rating 3, display 4, gpu 5); and on an utterance
matching both the gaming and the editing keyword clusters only the first
cluster (gaming) applies. -/
theorem fallback_gaming_budget_scenario :
    parse_simple_fallback "laptop gaming budget 15 juta" freshMemory =
      (⟨true, ⟨some 15000000, some 4, some 16, none⟩, ⟨2, 4, 3, 3, 4, 5⟩,
        "gaming", false, [], ⟨some 15000000, some "gaming"⟩⟩,
       { freshMemory with prefBudget := some 15000000, prefUseCase := some "gaming" }) ∧
    ((parse_simple_fallback "laptop gaming dan editing video" freshMemory).1.weights =
        ⟨2, 4, 3, 3, 4, 5⟩ ∧
      (parse_simple_fallback "laptop gaming dan editing video" freshMemory).1.use_case =
        "gaming") := by
  refine ⟨by decide, by decide, by decide⟩

/-! ### Claim C10 : AI filter bounds default on falsy values -/

/-- Claim C10: in `convert_ai_filters_to_app_filters` a bound supplied as 0
is indistinguishable from an absent (or null) bound — replacing any of the
nine optional bounds by `some 0` leaves the output unchanged from `none` —
the result is by construction a complete six-criterion mapping of
(min, max) pairs, and the defaults picked for absent ram/ssd/gpu bounds
are the dataset-wide observed minima and maxima of the option lists. -/
theorem convert_ai_filters_defaults (f : AiFilters) (ds : DataStats)
    (hram : ds.ram_options ≠ []) (hssd : ds.ssd_options ≠ [])
    (hgpu : ds.gpu_options ≠ []) :
    (convert_ai_filters_to_app_filters { f with price_min := some 0 } ds =
        convert_ai_filters_to_app_filters { f with price_min := none } ds ∧
      convert_ai_filters_to_app_filters { f with price_max := some 0 } ds =
        convert_ai_filters_to_app_filters { f with price_max := none } ds ∧
      convert_ai_filters_to_app_filters { f with ram_min := some 0 } ds =
        convert_ai_filters_to_app_filters { f with ram_min := none } ds ∧
      convert_ai_filters_to_app_filters { f with ram_max := some 0 } ds =
        convert_ai_filters_to_app_filters { f with ram_max := none } ds ∧
      convert_ai_filters_to_app_filters { f with ssd_min := some 0 } ds =
        convert_ai_filters_to_app_filters { f with ssd_min := none } ds ∧
      convert_ai_filters_to_app_filters { f with rating_min := some 0 } ds =
        convert_ai_filters_to_app_filters { f with rating_min := none } ds ∧
      convert_ai_filters_to_app_filters { f with display_min := some 0 } ds =
        convert_ai_filters_to_app_filters { f with display_min := none } ds ∧
      convert_ai_filters_to_app_filters { f with display_max := some 0 } ds =
        convert_ai_filters_to_app_filters { f with display_max := none } ds ∧
      convert_ai_filters_to_app_filters { f with gpu_min := some 0 } ds =
        convert_ai_filters_to_app_filters { f with gpu_min := none } ds) ∧
    ((convert_ai_filters_to_app_filters { f with ram_min := none } ds).ram.1 =
        minQ ds.ram_options ∧
      (convert_ai_filters_to_app_filters { f with ssd_min := none } ds).ssd.1 =
        minQ ds.ssd_options ∧
      (convert_ai_filters_to_app_filters { f with gpu_min := none } ds).gpu.1 =
        minQ ds.gpu_options ∧
      (convert_ai_filters_to_app_filters f ds).ssd.2 = maxQ ds.ssd_options ∧
      (convert_ai_filters_to_app_filters f ds).gpu.2 = maxQ ds.gpu_options) ∧
    ((minQ ds.ram_options ∈ ds.ram_options ∧
        ∀ x ∈ ds.ram_options, minQ ds.ram_options ≤ x) ∧
      (maxQ ds.ram_options ∈ ds.ram_options ∧
        ∀ x ∈ ds.ram_options, x ≤ maxQ ds.ram_options) ∧
      (minQ ds.ssd_options ∈ ds.ssd_options ∧
        ∀ x ∈ ds.ssd_options, minQ ds.ssd_options ≤ x) ∧
      (maxQ ds.ssd_options ∈ ds.ssd_options ∧
        ∀ x ∈ ds.ssd_options, x ≤ maxQ ds.ssd_options) ∧
      (minQ ds.gpu_options ∈ ds.gpu_options ∧
        ∀ x ∈ ds.gpu_options, minQ ds.gpu_options ≤ x) ∧
      (maxQ ds.gpu_options ∈ ds.gpu_options ∧
        ∀ x ∈ ds.gpu_options, x ≤ maxQ ds.gpu_options)) := by
  refine ⟨⟨?_, ?_, ?_, ?_, ?_, ?_, ?_, ?_, ?_⟩, ⟨rfl, rfl, rfl, rfl, rfl⟩,
    ⟨minQ_mem _ hram, fun x hx => minQ_le _ x hx⟩,
    ⟨maxQ_mem _ hram, fun x hx => maxQ_ge _ x hx⟩,
    ⟨minQ_mem _ hssd, fun x hx => minQ_le _ x hx⟩,
    ⟨maxQ_mem _ hssd, fun x hx => maxQ_ge _ x hx⟩,
    ⟨minQ_mem _ hgpu, fun x hx => minQ_le _ x hx⟩,
    ⟨maxQ_mem _ hgpu, fun x hx => maxQ_ge _ x hx⟩⟩ <;>
  simp [convert_ai_filters_to_app_filters, pyOr]

/-- Witness for C10 at a concrete filter set and dataset statistics. -/
theorem convert_ai_filters_defaults_witness :
    (convert_ai_filters_to_app_filters
        { price_min := some 0, price_max := none, ram_min := none, ram_max := none,
          ssd_min := none, rating_min := none, display_min := none,
          display_max := none, gpu_min := some 0 }
        ⟨260, 1560, [8, 16], [512, 1024], [0, 4, 6], 40, 95, 13, 16⟩ =
      convert_ai_filters_to_app_filters
        { price_min := none, price_max := none, ram_min := none, ram_max := none,
          ssd_min := none, rating_min := none, display_min := none,
          display_max := none, gpu_min := some 0 }
        ⟨260, 1560, [8, 16], [512, 1024], [0, 4, 6], 40, 95, 13, 16⟩) ∧
    minQ [(8 : ℚ), 16] ∈ [(8 : ℚ), 16] := by
  have h := convert_ai_filters_defaults
    { price_min := none, price_max := none, ram_min := none, ram_max := none,
      ssd_min := none, rating_min := none, display_min := none,
      display_max := none, gpu_min := some 0 }
    ⟨260, 1560, [8, 16], [512, 1024], [0, 4, 6], 40, 95, 13, 16⟩
    (by simp) (by simp) (by simp)
  exact ⟨h.1.1, h.2.2.1.1⟩

/-! ### Claim C9 : preprocessing invariants -/

lemma length_insAscQ (x : ℚ) (l : List ℚ) : (insAscQ x l).length = l.length + 1 := by
  induction l with
  | nil => rfl
  | cons y ys ih =>
    by_cases h : x ≤ y <;> simp [insAscQ, h, ih]

lemma length_sortAscQ (l : List ℚ) : (sortAscQ l).length = l.length := by
  induction l with
  | nil => rfl
  | cons x xs ih => simp [sortAscQ, length_insAscQ, ih]

lemma medianQ_isSome (l : List ℚ) (h : l ≠ []) : (medianQ l).isSome = true := by
  have hlen : (sortAscQ l).length ≠ 0 := by
    rw [length_sortAscQ]
    simpa using h
  unfold medianQ
  simp only [hlen, if_false]
  split <;> simp

lemma length_filter_map_eq {α β : Type} (f : α → β) (p : α → Bool) (q : β → Bool)
    (h : ∀ a, q (f a) = p a) (l : List α) :
    ((l.map f).filter q).length = (l.filter p).length := by
  induction l with
  | nil => rfl
  | cons a t ih =>
    by_cases hp : p a = true <;>
      simp [List.filter_cons, h a, hp, ih]

/-- Claim C9: after `preprocess_data` every surviving row has a present
(non-NaN) price, strictly positive ram/ssd/display (an exact 0 having been
replaced by 0.1), an unchanged gpu value (so integrated graphics stay 0)
and an unchanged price; when at least one input rating is present every
surviving row's rating is present (median fill); and exactly the rows
whose price parsed survive. -/
theorem preprocess_data_invariants (rows : List RawRow)
    (hdisp : ∀ r ∈ rows, 0 ≤ r.display) :
    (∀ q ∈ preprocess_data rows,
        q.price.isSome = true ∧ 0 < q.ram ∧ 0 < q.ssd ∧ 0 < q.display) ∧
    (∀ q ∈ preprocess_data rows, ∃ r ∈ rows, q.gpu = r.gpu ∧ q.price = r.price) ∧
    (rows.filterMap (fun r => r.rating) ≠ [] →
      ∀ q ∈ preprocess_data rows, q.rating.isSome = true) ∧
    (preprocess_data rows).length = (rows.filter (fun r => r.price.isSome)).length := by
  have hmem : ∀ q ∈ preprocess_data rows, ∃ r ∈ rows,
      r.price.isSome = true ∧
      q = { model := r.model
          , price := r.price
          , ram := if (r.ram : ℚ) = 0 then 1/10 else (r.ram : ℚ)
          , ssd := if (r.ssd : ℚ) = 0 then 1/10 else (r.ssd : ℚ)
          , display := if r.display = 0 then 1/10 else r.display
          , gpu := r.gpu
          , rating := match r.rating with
              | some v => some v
              | none => medianQ (rows.filterMap (fun s => s.rating))
          , category := categorize_laptop
              { model := r.model, price := r.price, ram := r.ram, ssd := r.ssd,
                display := r.display, gpu := r.gpu,
                rating := match r.rating with
                  | some v => some v
                  | none => medianQ (rows.filterMap (fun s => s.rating)) } } := by
    intro q hq
    simp only [preprocess_data, List.mem_map, List.mem_filter] at hq
    rcases hq with ⟨r2, ⟨hr2, hprice⟩, rfl⟩
    rcases hr2 with ⟨r, hr, rfl⟩
    exact ⟨r, hr, hprice, rfl⟩
  refine ⟨?_, ?_, ?_, ?_⟩
  · intro q hq
    rcases hmem q hq with ⟨r, hr, hprice, rfl⟩
    refine ⟨hprice, ?_, ?_, ?_⟩
    · by_cases h : (r.ram : ℚ) = 0
      · simp [h]
      · simp only [h, if_false]
        exact lt_of_le_of_ne (by positivity) (Ne.symm h)
    · by_cases h : (r.ssd : ℚ) = 0
      · simp [h]
      · simp only [h, if_false]
        exact lt_of_le_of_ne (by positivity) (Ne.symm h)
    · by_cases h : r.display = 0
      · simp [h]
      · simp only [h, if_false]
        exact lt_of_le_of_ne (hdisp r hr) (Ne.symm h)
  · intro q hq
    rcases hmem q hq with ⟨r, hr, _, rfl⟩
    exact ⟨r, hr, rfl, rfl⟩
  · intro hrat q hq
    rcases hmem q hq with ⟨r, hr, _, rfl⟩
    cases hv : r.rating with
    | some v => simp [hv]
    | none => simpa [hv] using medianQ_isSome _ hrat
  · simp only [preprocess_data, List.length_map]
    exact length_filter_map_eq _ _ _ (fun r => rfl) rows

/-- Witness for C9 at two concrete rows: an all-zero-spec row with a parsed
price survives with positive 0.1 fields, gpu still 0 and a median-filled
rating, while the row with an unparseable price is dropped. -/
theorem preprocess_data_invariants_witness :
    ((⟨"x brand", some 100, 1/10, 1/10, 1/10, 0, some 80, "Student"⟩ : ProcRow).price.isSome = true ∧
      0 < (⟨"x brand", some 100, 1/10, 1/10, 1/10, 0, some 80, "Student"⟩ : ProcRow).ram ∧
      0 < (⟨"x brand", some 100, 1/10, 1/10, 1/10, 0, some 80, "Student"⟩ : ProcRow).ssd ∧
      0 < (⟨"x brand", some 100, 1/10, 1/10, 1/10, 0, some 80, "Student"⟩ : ProcRow).display) ∧
    (preprocess_data
      [⟨"x brand", some 100, 0, 0, 0, 0, none⟩,
       ⟨"y brand", none, 8, 512, 15, 4, some 80⟩]).length =
      ([(⟨"x brand", some 100, 0, 0, 0, 0, none⟩ : RawRow),
        ⟨"y brand", none, 8, 512, 15, 4, some 80⟩].filter
          (fun r => r.price.isSome)).length := by
  have h := preprocess_data_invariants
    [⟨"x brand", some 100, 0, 0, 0, 0, none⟩,
     ⟨"y brand", none, 8, 512, 15, 4, some 80⟩]
    (by decide)
  refine ⟨h.1 _ ?_, h.2.2.2⟩
  have hval : preprocess_data
      [⟨"x brand", some 100, 0, 0, 0, 0, none⟩,
       ⟨"y brand", none, 8, 512, 15, 4, some 80⟩] =
      [⟨"x brand", some 100, 1/10, 1/10, 1/10, 0, some 80, "Student"⟩] := by
    rfl
  rw [hval]
  exact List.mem_singleton.mpr rfl

/-! ### Claim C4 : ranking -/

lemma rank_post_pairs {α : Type} (sorted : List (α × ℚ)) :
    (rank_alternatives_post sorted none).map (fun q => (q.1, q.2.1)) = sorted := by
  unfold rank_alternatives_post
  rw [List.map_map]
  have hfun : ((fun q : α × ℚ × ℕ => (q.1, q.2.1)) ∘
      (fun p : (α × ℚ) × ℕ => (p.1.1, p.1.2, p.2 + 1))) =
      (Prod.fst : (α × ℚ) × ℕ → α × ℚ) := by
    funext p
    rfl
  rw [hfun, List.map_fst_zip]
  simp

/-- Claim C4 as frozen is false of the source: the sort behind
`rank_alternatives` is `sort_values` with the default `kind='quicksort'`,
whose contract does not fix the relative order of equal scores (pandas
documents quicksort as not stable, and a descending sort reverses an
ascending argsort), so input-order tie-breaking is not guaranteed.  On the
two-row input with equal scores ["a", "b"] × [1, 1], the tie-swapped
ranking [("b", 1, 1), ("a", 1, 2)] is a contract-compliant result of
`rank_alternatives`, and its score-1 class is in the reverse of input
order. -/
theorem rank_alternatives_stable_tiebreak_counterexample :
    rank_alternatives_rel ["a", "b"] [(1 : ℚ), 1] none
      [("b", 1, 1), ("a", 1, 2)] ∧
    ¬ (([("b", (1 : ℚ), 1), ("a", 1, 2)].map (fun q => (q.1, q.2.1))).filter
          (fun q => decide (q.2 = 1)) =
        ((["a", "b"]).zip [(1 : ℚ), 1]).filter (fun q => decide (q.2 = 1))) := by
  constructor
  · exact ⟨[("b", 1), ("a", 1)], ⟨by decide, by decide⟩, rfl⟩
  · decide

/-- Claim C4 amended: every result `rank_alternatives` can return with no
cap is a permutation of the (row, score) pairs sorted by score descending
— the order within a class of equal scores being implementation-defined
by the library's unstable quicksort, not the original input order — with
rank numbers 1..N attached in order, and truncating that same result to
its first `k` entries, ranks untouched, is a result the call with
`top_n = k` can return. -/
theorem rank_alternatives_spec {α : Type} (rows : List α) (scores : List ℚ)
    (k : ℕ) (out : List (α × ℚ × ℕ))
    (h : rank_alternatives_rel rows scores none out) :
    (out.map (fun q => (q.1, q.2.1))).Perm (rows.zip scores) ∧
    (out.map (fun q => q.2.1)).Pairwise (fun a b => b ≤ a) ∧
    (out.map (fun q => q.2.2)) =
      (List.range (rows.zip scores).length).map (fun i => i + 1) ∧
    rank_alternatives_rel rows scores (some k) (out.take k) := by
  obtain ⟨sorted, ⟨hperm, hpair⟩, rfl⟩ := h
  refine ⟨?_, ?_, ?_, ?_⟩
  · rw [rank_post_pairs]
    exact hperm
  · have hmap : (rank_alternatives_post sorted none).map (fun q => q.2.1) =
        ((rank_alternatives_post sorted none).map (fun q => (q.1, q.2.1))).map
          Prod.snd := by
      rw [List.map_map]
      rfl
    rw [hmap, rank_post_pairs, List.pairwise_map]
    exact hpair
  · unfold rank_alternatives_post
    rw [List.map_map]
    have hfun : ((fun q : α × ℚ × ℕ => q.2.2) ∘
        (fun p : (α × ℚ) × ℕ => (p.1.1, p.1.2, p.2 + 1))) =
        ((fun i => i + 1) ∘ (Prod.snd : (α × ℚ) × ℕ → ℕ)) := by
      funext p
      rfl
    rw [hfun, ← List.map_map, List.map_snd_zip]
    · rw [hperm.length_eq]
    · simp
  · exact ⟨sorted, ⟨hperm, hpair⟩, rfl⟩

/-- Witness for the amended C4 at a concrete three-row input with a tie:
the sorted order [("b", 2), ("a", 1), ("c", 1)] satisfies the sort
contract, and the resulting ranking is a descending permutation carrying
ranks 1..3. -/
theorem rank_alternatives_spec_witness :
    (((rank_alternatives_post [("b", (2 : ℚ)), ("a", 1), ("c", 1)] none).map
        (fun q => (q.1, q.2.1))).Perm ((["a", "b", "c"]).zip [(1 : ℚ), 2, 1])) ∧
    ((rank_alternatives_post [("b", (2 : ℚ)), ("a", 1), ("c", 1)] none).map
        (fun q => q.2.2)) =
      (List.range ((["a", "b", "c"]).zip [(1 : ℚ), 2, 1]).length).map
        (fun i => i + 1) := by
  have h := rank_alternatives_spec ["a", "b", "c"] [(1 : ℚ), 2, 1] 2
    (rank_alternatives_post [("b", (2 : ℚ)), ("a", 1), ("c", 1)] none)
    ⟨[("b", 2), ("a", 1), ("c", 1)], ⟨by decide, by decide⟩, rfl⟩
  exact ⟨h.1, h.2.2.1⟩

/-! ### Claim C1 : SAW scores -/

lemma foldl_zipWith_getD (g : String → List ℚ) (cs : List String) :
    ∀ (acc : List ℚ) (n : ℕ), acc.length = n → (∀ c ∈ cs, (g c).length = n) →
      ∀ i, i < n →
      (cs.foldl (fun a c => a.zipWith (· + ·) (g c)) acc).getD i 0 =
        acc.getD i 0 + (cs.map (fun c => (g c).getD i 0)).sum := by
  induction cs with
  | nil =>
    intro acc n _ _ i _
    simp
  | cons c cs ih =>
    intro acc n hacc hg i hi
    have hgc : (g c).length = n := hg c (List.mem_cons_self c cs)
    have hlen : (acc.zipWith (· + ·) (g c)).length = n := by
      rw [List.length_zipWith, hacc, hgc, min_self]
    rw [List.foldl_cons,
      ih _ n hlen (fun d hd => hg d (List.mem_cons_of_mem c hd)) i hi,
      getD_zipWith_add acc (g c) i (by rw [hacc]; exact hi) (by rw [hgc]; exact hi)]
    simp [add_assoc]

lemma getWeight_cons_self (c : String) (w : ℚ) (tl : List (String × ℚ)) :
    getWeight ((c, w) :: tl) c = w := by
  unfold getWeight
  rw [List.find?_cons_of_pos _ (by simp)]

lemma getWeight_cons_ne (c d : String) (w : ℚ) (tl : List (String × ℚ))
    (h : c ≠ d) : getWeight ((c, w) :: tl) d = getWeight tl d := by
  unfold getWeight
  rw [List.find?_cons_of_neg _ (by simp [h])]

lemma sum_criteria_eq (cols : List String) (nv : String → ℚ) :
    ∀ (weights : List (String × ℚ)), (weights.map Prod.fst).Nodup →
      (((weights.map Prod.fst).filter (fun c => decide (c ∈ cols))).map
          (fun c => nv c * getWeight weights c)).sum =
        (weights.map (fun p => p.2 * (if p.1 ∈ cols then nv p.1 else 0))).sum := by
  intro weights
  induction weights with
  | nil => intro _; rfl
  | cons p tl ih =>
    intro hnd
    obtain ⟨c, w⟩ := p
    have hnd2 : (c :: tl.map Prod.fst).Nodup := by simpa using hnd
    rcases List.nodup_cons.mp hnd2 with ⟨hp, htl⟩
    have hcong : ∀ d ∈ (tl.map Prod.fst).filter (fun d => decide (d ∈ cols)),
        nv d * getWeight ((c, w) :: tl) d = nv d * getWeight tl d := by
      intro d hd
      have hdmem : d ∈ tl.map Prod.fst := (List.mem_filter.mp hd).1
      have hne : c ≠ d := fun hcd => hp (hcd ▸ hdmem)
      rw [getWeight_cons_ne c d w tl hne]
    by_cases hc : c ∈ cols
    · rw [List.map_cons, List.filter_cons,
        if_pos (show (decide (c ∈ cols)) = true from by simpa using hc),
        List.map_cons, List.sum_cons, getWeight_cons_self,
        List.map_congr_left hcong, ih htl]
      simp only [List.map_cons, List.sum_cons]
      rw [if_pos hc, mul_comm]
    · rw [List.map_cons, List.filter_cons,
        if_neg (show ¬ (decide (c ∈ cols)) = true from by simpa using hc),
        List.map_congr_left hcong, ih htl]
      simp only [List.map_cons, List.sum_cons]
      rw [if_neg hc, mul_zero, zero_add]

/-- Claim C1: under the claim's hypotheses — a weight dict with distinct
keys, non-negative values summing to 1, and a normalized matrix whose
entries lie in [0, 1] — every per-alternative score of
`calculate_saw_scores` equals the sum over the weight dict of
weight[c] times the normalized value (0 when the criterion is absent from
the data columns), and lies in [0, 1]. -/
theorem calculate_saw_scores_spec (df : Df) (weights : List (String × ℚ))
    (cfg : List (String × Bool))
    (hlen : ∀ c ∈ df.cols, (df.col c).length = df.n)
    (hnodup : (weights.map Prod.fst).Nodup)
    (hw : ∀ p ∈ weights, 0 ≤ p.2)
    (hsum : (weights.map Prod.snd).sum = 1)
    (hnorm : ∀ c ∈ criteriaColumns weights df,
      ∀ y ∈ normalizeColumn cfg c (df.col c), 0 ≤ y ∧ y ≤ 1) :
    ∀ i, i < df.n →
      (calculate_saw_scores df weights cfg).getD i 0 =
        (weights.map (fun p => p.2 *
          (if p.1 ∈ df.cols then (normalizeColumn cfg p.1 (df.col p.1)).getD i 0
           else 0))).sum ∧
      0 ≤ (calculate_saw_scores df weights cfg).getD i 0 ∧
      (calculate_saw_scores df weights cfg).getD i 0 ≤ 1 := by
  intro i hi
  have hcols : ∀ c ∈ criteriaColumns weights df, c ∈ df.cols := by
    intro c hc
    simpa using (List.mem_filter.mp hc).2
  have hnlen : ∀ c ∈ criteriaColumns weights df,
      (normalizeColumn cfg c (df.col c)).length = df.n := by
    intro c hc
    rw [length_normalizeColumn, hlen c (hcols c hc)]
  have hglen : ∀ c ∈ criteriaColumns weights df,
      ((normalizeColumn cfg c (df.col c)).map
        (fun x => x * getWeight weights c)).length = df.n := by
    intro c hc
    rw [List.length_map, hnlen c hc]
  have hkey : (calculate_saw_scores df weights cfg).getD i 0 =
      ((criteriaColumns weights df).map (fun c =>
        ((normalizeColumn cfg c (df.col c)).map
          (fun x => x * getWeight weights c)).getD i 0)).sum := by
    unfold calculate_saw_scores
    rw [foldl_zipWith_getD _ _ _ df.n (by simp) hglen i hi, getD_replicate_zero,
      zero_add]
  have hterm : ∀ c ∈ criteriaColumns weights df,
      ((normalizeColumn cfg c (df.col c)).map
        (fun x => x * getWeight weights c)).getD i 0 =
      (normalizeColumn cfg c (df.col c)).getD i 0 * getWeight weights c := by
    intro c hc
    exact getD_map_q _ _ i (by rw [hnlen c hc]; exact hi)
  have heq : (calculate_saw_scores df weights cfg).getD i 0 =
      (weights.map (fun p => p.2 *
        (if p.1 ∈ df.cols then (normalizeColumn cfg p.1 (df.col p.1)).getD i 0
         else 0))).sum := by
    rw [hkey, List.map_congr_left hterm]
    exact sum_criteria_eq df.cols
      (fun c => (normalizeColumn cfg c (df.col c)).getD i 0) weights hnodup
  have hcrit : ∀ p ∈ weights, p.1 ∈ df.cols → p.1 ∈ criteriaColumns weights df := by
    intro p hp hmem
    exact List.mem_filter.mpr ⟨List.mem_map_of_mem Prod.fst hp, by simpa using hmem⟩
  have hbound : ∀ p ∈ weights, p.1 ∈ df.cols →
      0 ≤ (normalizeColumn cfg p.1 (df.col p.1)).getD i 0 ∧
      (normalizeColumn cfg p.1 (df.col p.1)).getD i 0 ≤ 1 := by
    intro p hp hmem
    refine hnorm p.1 (hcrit p hp hmem) _ (getD_mem_q _ i ?_)
    rw [length_normalizeColumn, hlen p.1 hmem]
    exact hi
  refine ⟨heq, ?_, ?_⟩
  · rw [heq]
    apply List.sum_nonneg
    intro x hx
    rcases List.mem_map.mp hx with ⟨p, hp, rfl⟩
    by_cases hmem : p.1 ∈ df.cols
    · rw [if_pos hmem]
      exact mul_nonneg (hw p hp) (hbound p hp hmem).1
    · rw [if_neg hmem, mul_zero]
  · rw [heq]
    have hle : (weights.map (fun p => p.2 *
        (if p.1 ∈ df.cols then (normalizeColumn cfg p.1 (df.col p.1)).getD i 0
         else 0))).sum ≤ (weights.map (fun p => p.2)).sum := by
      apply List.sum_le_sum
      intro p hp
      by_cases hmem : p.1 ∈ df.cols
      · rw [if_pos hmem]
        exact mul_le_of_le_one_right (hw p hp) (hbound p hp hmem).2
      · rw [if_neg hmem, mul_zero]
        exact hw p hp
    calc (weights.map (fun p => p.2 *
        (if p.1 ∈ df.cols then (normalizeColumn cfg p.1 (df.col p.1)).getD i 0
         else 0))).sum ≤ (weights.map (fun p => p.2)).sum := hle
      _ = 1 := hsum

/-- Witness for C1: a two-row data frame with the benefit column
ram_numeric = [1, 2], weights putting 1 on ram and 0 on the absent
gpu_numeric column, under the default criteria configuration. -/
theorem calculate_saw_scores_spec_witness :
    0 ≤ (calculate_saw_scores ⟨["ram_numeric"], fun _ => [1, 2], 2⟩
        [("ram_numeric", 1), ("gpu_numeric", 0)] CRITERIA_CONFIG).getD 0 0 ∧
    (calculate_saw_scores ⟨["ram_numeric"], fun _ => [1, 2], 2⟩
        [("ram_numeric", 1), ("gpu_numeric", 0)] CRITERIA_CONFIG).getD 0 0 ≤ 1 := by
  have hval : normalizeColumn CRITERIA_CONFIG "ram_numeric" [1, 2] = [1/2, 1] := by
    have hb : normalizeColumn CRITERIA_CONFIG "ram_numeric" [1, 2] =
        normalize_benefit [1, 2] := rfl
    rw [hb]
    norm_num [normalize_benefit, maxQ, max_def]
  have hcrit : criteriaColumns [("ram_numeric", 1), ("gpu_numeric", 0)]
      ⟨["ram_numeric"], fun _ => [1, 2], 2⟩ = ["ram_numeric"] := by decide
  have h := calculate_saw_scores_spec ⟨["ram_numeric"], fun _ => [1, 2], 2⟩
    [("ram_numeric", (1 : ℚ)), ("gpu_numeric", 0)] CRITERIA_CONFIG
    (by decide) (by decide) (by decide) (by simp)
    (by
      rw [hcrit]
      intro c hc
      rcases List.mem_singleton.mp hc with rfl
      intro y hy
      rw [hval] at hy
      rcases List.mem_cons.mp hy with rfl | hy2
      · norm_num
      · rcases List.mem_singleton.mp hy2 with rfl
        norm_num)
    0 (by decide)
  exact ⟨h.2.1, h.2.2⟩

end Laptop
